import Mathlib

/-!
Shallow embedding of the `EscrowService` Solidity contract of this
repository (`src/smart-contracts/contracts/Escrow.sol`, the indexed
multi-escrow variant) together with the legacy single-escrow-per-source
variant, and proofs about the lifecycle operations.

Modelling conventions:
* addresses and wei amounts are `Nat`; the null address `address(0)` is `0`;
* `uint256` arithmetic is modelled on `Nat`; Solidity 0.8 checked
  subtraction that would underflow is modelled as an explicit
  `arithmeticUnderflow` error (a revert), and the amounts involved are far
  below `2 ^ 256` so wrap-around is irrelevant to the claims;
* a reverting call is `Except.error`, a completing call is `Except.ok`;
* every contract call returns, next to the post state, the ordered list of
  its observable primitive effects (`Step`): storage writes of
  `amountInEscrow`, tombstoning of a slot (`delete activeEscrows[i]`),
  external value transfers (`payable(x).transfer(a)`), and emitted events.
-/

namespace BLContracts

/-- An escrow record, mirroring `struct Escrow` of
`src/smart-contracts/contracts/Escrow.sol` (field order as in the source). -/
structure Escrow where
  source : Nat
  destination : Nat
  total : Nat
  timeHorizon : Nat
  amountInEscrow : Nat
  created : Nat
  deriving Repr, DecidableEq

/-- The all-zero record left in a slot by `delete activeEscrows[i]`. -/
def zeroEscrow : Escrow := ⟨0, 0, 0, 0, 0, 0⟩

/-- Events of the indexed contract: `created`, `funded`, `completed`,
`refunded`, with the argument order of the Solidity `emit` statements.
The legacy variant's `refund` event has the same fields and is modelled by
`refunded` as well. -/
inductive Event where
  | created (source destination createdAt timeHorizon amountInEscrow escrowIndex : Nat)
  | funded (source destination createdAt timeHorizon amountInEscrow : Nat)
  | completed (source destination createdAt timeHorizon amountInEscrow : Nat)
  | refunded (source destination createdAt timeHorizon amountInEscrow : Nat)
  deriving Repr, DecidableEq

/-- Observable primitive effects of a call, recorded in execution order. -/
inductive Step where
  | setAmount (idx amount : Nat)
  | clearSlot (idx : Nat)
  | transfer (recipient amount : Nat)
  | emitEvent (e : Event)
  deriving Repr, DecidableEq

/-- Revert reasons of the contract: the named `require` messages, the
implicit Solidity 0.8 panics (array bound, checked subtraction), and a
failing `payable(x).transfer`. -/
inductive EscrowError where
  | senderZero
  | totalZero
  | destinationEmpty
  | timeHorizonZero
  | noActiveEscrow
  | alreadyFullyFunded
  | zeroContribution
  | notMet
  | insufficientBalance
  | notAdmin
  | arithmeticUnderflow
  | outOfBounds
  | transferFailed
  deriving Repr, DecidableEq

/-- Contract storage of the indexed variant plus its ETH balance:
`Escrow[] public activeEscrows`, `address public admin`. -/
structure EscrowState where
  activeEscrows : List Escrow
  admin : Nat
  balance : Nat
  deriving Repr, DecidableEq

/-- `escrowHasExpired` (Escrow.sol lines 250-258):
`return (currentTime -= escrow.created) > escrow.timeHorizon;` — checked
subtraction, so a timestamp before `created` reverts with an arithmetic
underflow panic; otherwise the strict comparison decides expiry. -/
def escrowHasExpired (s : EscrowState) (idx ts : Nat) : Except EscrowError Bool :=
  match s.activeEscrows[idx]? with
  | none => .error .outOfBounds
  | some escrow =>
      if ts < escrow.created then .error .arithmeticUnderflow
      else .ok (decide (ts - escrow.created > escrow.timeHorizon))

/-- `removeEscrowFromMap` (lines 277-280): bound check, then
`delete activeEscrows[_index]`, which zeroes the slot in place. -/
def removeEscrowFromMap (s : EscrowState) (idx : Nat) : Except EscrowError EscrowState :=
  if s.activeEscrows.length > idx then
    .ok { s with activeEscrows := s.activeEscrows.set idx zeroEscrow }
  else .error .outOfBounds

/-- `issueRefund` (lines 260-275). `escrow` is a `memory` copy, so the
`escrow.amountInEscrow = 0` write has no storage effect and is not a
`Step`; the storage slot is cleared by `removeEscrowFromMap`. The ETH is
sent to `msg.sender` (the caller), and the transfer precedes the clearing
and the `refunded` event. -/
def issueRefund (s : EscrowState) (sender idx : Nat) : Except EscrowError (EscrowState × List Step) :=
  match s.activeEscrows[idx]? with
  | none => .error .outOfBounds
  | some escrow =>
      let amount := escrow.amountInEscrow
      if s.balance < amount then .error .transferFailed
      else
        match removeEscrowFromMap { s with balance := s.balance - amount } idx with
        | .error err => .error err
        | .ok s1 =>
            .ok (s1,
              [Step.transfer sender amount,
               Step.clearSlot idx,
               Step.emitEvent (Event.refunded sender escrow.destination escrow.created
                 escrow.timeHorizon amount)])

/-- `createEscrow` (lines 95-130): validation, push, `created` event,
return `activeEscrows.length - 1`. The returned handle is the third
component. -/
def createEscrow (s : EscrowState) (source destination total timeHorizon ts : Nat) :
    Except EscrowError (EscrowState × List Step × Nat) :=
  if total = 0 then .error .totalZero
  else if destination = 0 then .error .destinationEmpty
  else if timeHorizon = 0 then .error .timeHorizonZero
  else
    let record : Escrow := ⟨source, destination, total, timeHorizon, 0, ts⟩
    let escrows := s.activeEscrows ++ [record]
    .ok ({ s with activeEscrows := escrows },
         [Step.emitEvent (Event.created source destination ts timeHorizon 0
           (escrows.length - 1))],
         escrows.length - 1)

/-- `fundEscrow` (lines 134-167), called with `msg.value = v` at timestamp
`ts`; being `payable`, the value is added to the contract balance at call
entry. An expired escrow is redirected to `issueRefund`; otherwise the
`require`s run in source order and the contribution is added, emitting
`funded` when the new amount meets or exceeds `total`. -/
def fundEscrow (s : EscrowState) (sender idx v ts : Nat) : Except EscrowError (EscrowState × List Step) :=
  if sender = 0 then .error .senderZero
  else
    let s0 : EscrowState := { s with balance := s.balance + v }
    match escrowHasExpired s0 idx ts with
    | .error err => .error err
    | .ok true => issueRefund s0 sender idx
    | .ok false =>
        match s0.activeEscrows[idx]? with
        | none => .error .outOfBounds
        | some escrow =>
            if escrow.total = 0 then .error .noActiveEscrow
            else if escrow.destination = 0 then .error .noActiveEscrow
            else if escrow.total ≤ escrow.amountInEscrow then .error .alreadyFullyFunded
            else if v = 0 then .error .zeroContribution
            else
              let escrow1 := { escrow with amountInEscrow := escrow.amountInEscrow + v }
              let s1 := { s0 with activeEscrows := s0.activeEscrows.set idx escrow1 }
              if escrow1.total ≤ escrow1.amountInEscrow then
                .ok (s1, [Step.setAmount idx escrow1.amountInEscrow,
                  Step.emitEvent (Event.funded sender escrow.destination escrow.created
                    escrow.timeHorizon escrow1.amountInEscrow)])
              else .ok (s1, [Step.setAmount idx escrow1.amountInEscrow])

/-- `releaseEscrow` (lines 173-207). Modifier order: `onlyAdmin`, then
`refundOnExpired` (an expired index is resolved by `issueRefund` and the
body is skipped). The body: requires, then `escrow.amountInEscrow = 0`
(storage write), then `transfer` to the destination, then the `completed`
event (reading the already-zeroed storage field), then
`removeEscrowFromMap`. -/
def releaseEscrow (s : EscrowState) (sender idx ts : Nat) : Except EscrowError (EscrowState × List Step) :=
  if sender ≠ s.admin then .error .notAdmin
  else
    match escrowHasExpired s idx ts with
    | .error err => .error err
    | .ok true => issueRefund s sender idx
    | .ok false =>
        match s.activeEscrows[idx]? with
        | none => .error .outOfBounds
        | some escrow =>
            if escrow.amountInEscrow < escrow.total then .error .notMet
            else if s.balance < escrow.amountInEscrow then .error .insufficientBalance
            else if escrow.destination = 0 then .error .noActiveEscrow
            else
              let amount := escrow.amountInEscrow
              let escrow1 := { escrow with amountInEscrow := 0 }
              let s1 : EscrowState :=
                { s with activeEscrows := s.activeEscrows.set idx escrow1,
                         balance := s.balance - amount }
              match removeEscrowFromMap s1 idx with
              | .error err => .error err
              | .ok s2 =>
                  .ok (s2,
                    [Step.setAmount idx 0,
                     Step.transfer escrow.destination amount,
                     Step.emitEvent (Event.completed escrow1.source escrow1.destination
                       escrow1.created escrow1.timeHorizon escrow1.amountInEscrow),
                     Step.clearSlot idx])

/-- `rejectEscrow` (lines 209-211): `onlyAdmin`, then an unconditional
`issueRefund`. -/
def rejectEscrow (s : EscrowState) (sender idx : Nat) : Except EscrowError (EscrowState × List Step) :=
  if sender ≠ s.admin then .error .notAdmin
  else issueRefund s sender idx

/-- The loop of `refundAllExpiredEscrows` (lines 213-219), with an explicit
fuel equal to the number of remaining iterations (`activeEscrows.length`
never changes during the sweep, since `delete` zeroes in place). -/
def sweepIter (sender ts : Nat) : Nat → EscrowState → Nat → Except EscrowError (EscrowState × List Step)
  | 0, s, _ => .ok (s, [])
  | fuel + 1, s, i =>
      if i < s.activeEscrows.length then
        match escrowHasExpired s i ts with
        | .error err => .error err
        | .ok true =>
            match issueRefund s sender i with
            | .error err => .error err
            | .ok (s1, steps1) =>
                match sweepIter sender ts fuel s1 (i + 1) with
                | .error err => .error err
                | .ok (s2, steps2) => .ok (s2, steps1 ++ steps2)
        | .ok false => sweepIter sender ts fuel s (i + 1)
      else .ok (s, [])

/-- `refundAllExpiredEscrows` (lines 213-219): `onlyAdmin`, then
`for (i = 0; i < activeEscrows.length; i++) if (escrowHasExpired(i)) issueRefund(i)`. -/
def refundAllExpiredEscrows (s : EscrowState) (sender ts : Nat) : Except EscrowError (EscrowState × List Step) :=
  if sender ≠ s.admin then .error .notAdmin
  else sweepIter sender ts s.activeEscrows.length s 0

/- ======== Legacy single-escrow-per-source variant (`src/unnamed/part_002`) ======== -/

/-- The legacy variant's `struct Escrow` (no `source` field). -/
structure LegacyEscrow where
  total : Nat
  destination : Nat
  timeHorizon : Nat
  amountInEscrow : Nat
  created : Nat
  deriving Repr, DecidableEq

/-- Default value of the legacy mapping (`Escrow` with all fields zero). -/
def zeroLegacyEscrow : LegacyEscrow := ⟨0, 0, 0, 0, 0⟩

/-- Legacy storage: `mapping(address => Escrow) public activeEscrows`,
modelled as an association list with default `zeroLegacyEscrow`. -/
structure LegacyState where
  activeEscrows : List (Nat × LegacyEscrow)
  balance : Nat
  deriving Repr, DecidableEq

/-- Mapping read (absent key reads as the all-zero record). -/
def lookupEscrow : List (Nat × LegacyEscrow) → Nat → LegacyEscrow
  | [], _ => zeroLegacyEscrow
  | p :: rest, k => if p.1 = k then p.2 else lookupEscrow rest k

/-- Mapping write (update in place, or insert). -/
def setEscrowMap : List (Nat × LegacyEscrow) → Nat → LegacyEscrow → List (Nat × LegacyEscrow)
  | [], k, e => [(k, e)]
  | p :: rest, k, e => if p.1 = k then (k, e) :: rest else p :: setEscrowMap rest k e

/-- Legacy `escrowHasExpired`: same checked subtraction and strict
comparison as the indexed variant, keyed by source address. -/
def legacyEscrowHasExpired (st : LegacyState) (source ts : Nat) : Except EscrowError Bool :=
  let escrow := lookupEscrow st.activeEscrows source
  if ts < escrow.created then .error .arithmeticUnderflow
  else .ok (decide (ts - escrow.created > escrow.timeHorizon))

/-- Legacy `issueRefund`: memory copy, transfer to `msg.sender`, `refund`
event, then `delete activeEscrows[msg.sender]` (keyed by the caller, not
by `_source`). -/
def legacyIssueRefund (st : LegacyState) (sender source : Nat) : Except EscrowError (LegacyState × List Step) :=
  let escrow := lookupEscrow st.activeEscrows source
  let amount := escrow.amountInEscrow
  if st.balance < amount then .error .transferFailed
  else
    .ok ({ activeEscrows := setEscrowMap st.activeEscrows sender zeroLegacyEscrow,
           balance := st.balance - amount },
         [Step.transfer sender amount,
          Step.emitEvent (Event.refunded sender escrow.destination escrow.created
            escrow.timeHorizon amount),
          Step.clearSlot sender])

/-- Legacy `fundEscrow` (`src/unnamed/part_002` lines 100-131): the
`require`s run before the expiry check, and the `funded` event fires on the
strict comparison `escrow.amountInEscrow > escrow.total`. -/
def legacyFundEscrow (st : LegacyState) (sender v ts : Nat) : Except EscrowError (LegacyState × List Step) :=
  if sender = 0 then .error .senderZero
  else
    let st0 : LegacyState := { st with balance := st.balance + v }
    let escrow := lookupEscrow st0.activeEscrows sender
    if escrow.total = 0 then .error .noActiveEscrow
    else if escrow.destination = 0 then .error .noActiveEscrow
    else if escrow.total ≤ escrow.amountInEscrow then .error .alreadyFullyFunded
    else
      match legacyEscrowHasExpired st0 sender ts with
      | .error err => .error err
      | .ok true => legacyIssueRefund st0 sender sender
      | .ok false =>
          if v = 0 then .error .zeroContribution
          else
            let escrow1 := { escrow with amountInEscrow := escrow.amountInEscrow + v }
            let st1 := { st0 with activeEscrows := setEscrowMap st0.activeEscrows sender escrow1 }
            if escrow1.total < escrow1.amountInEscrow then
              .ok (st1, [Step.setAmount sender escrow1.amountInEscrow,
                Step.emitEvent (Event.funded sender escrow.destination escrow.created
                  escrow.timeHorizon escrow1.amountInEscrow)])
            else .ok (st1, [Step.setAmount sender escrow1.amountInEscrow])

/- ======== Observation helpers ======== -/

/-- `true` when the step list contains a `funded` event. -/
def emitsFunded (steps : List Step) : Bool :=
  steps.any fun st =>
    match st with
    | Step.emitEvent (Event.funded _ _ _ _ _) => true
    | _ => false

/-- The `funded`-emission flag of a call result (`false` on revert). -/
def fundedFlag {σ : Type} : Except EscrowError (σ × List Step) → Bool
  | .ok (_, steps) => emitsFunded steps
  | .error _ => false

/-- `true` when, scanning the effects in order, a slot is tombstoned before
any external transfer begins (vacuously `true` when no transfer occurs). -/
def clearBeforeTransfer : List Step → Bool
  | [] => true
  | Step.clearSlot _ :: _ => true
  | Step.transfer _ _ :: _ => false
  | _ :: rest => clearBeforeTransfer rest

/-- Number of `refunded` events in a step list. -/
def countRefunded (steps : List Step) : Nat :=
  (steps.filter fun st =>
    match st with
    | Step.emitEvent (Event.refunded _ _ _ _ _) => true
    | _ => false).length

/-- The expiry predicate of `escrowHasExpired`, as a pure function of a
record and a timestamp (meaningful when `e.created ≤ ts`). -/
def expiredb (e : Escrow) (ts : Nat) : Bool := decide (ts - e.created > e.timeHorizon)

/-- Sum of the `amountInEscrow` fields of a record list. -/
def sumAmounts (l : List Escrow) : Nat := (l.map (·.amountInEscrow)).sum

/-- Sum of `amountInEscrow` over the records the sweep refunds. -/
def sumExpiredAmounts (ts : Nat) (l : List Escrow) : Nat :=
  (l.filter (fun e => expiredb e ts)).foldr (fun e n => e.amountInEscrow + n) 0

/-- Slot-wise specification of the sweep result: every slot satisfying the
expiry predicate is zeroed, every other slot is unchanged. -/
def sweepSpec (ts : Nat) (l : List Escrow) : List Escrow :=
  l.map fun e => if expiredb e ts then zeroEscrow else e

deriving instance DecidableEq for Except

/- ======== Helper lemmas ======== -/

/-- Writing back the value a slot already holds leaves the list unchanged. -/
theorem set_same {α : Type} : ∀ (l : List α) (i : Nat) (x : α), l[i]? = some x → l.set i x = l := by
  intro l
  induction l with
  | nil => intro i x h; simp at h
  | cons a l ih =>
      intro i x h
      cases i with
      | zero =>
          simp only [List.getElem?_cons_zero, Option.some.injEq] at h
          simp [List.set, h]
      | succ n =>
          simp only [List.getElem?_cons_succ] at h
          simp [List.set, ih n x h]

/-- Reading an appended list at the length of its left part. -/
theorem getElem?_append_len {α : Type} (d : List α) (x : α) (r : List α) :
    (d ++ x :: r)[d.length]? = some x := by
  rw [List.getElem?_append_right (Nat.le_refl _)]
  simp

/-- Setting an appended list at the length of its left part. -/
theorem set_append_len {α : Type} : ∀ (d : List α) (x y : α) (r : List α),
    (d ++ x :: r).set d.length y = d ++ y :: r := by
  intro d
  induction d with
  | nil => intro x y r; rfl
  | cons a d ih => intro x y r; simp [List.set, ih]

/-- Evaluation of `escrowHasExpired` on an in-range slot at a timestamp not
before its creation. -/
theorem escrowHasExpired_eq (s : EscrowState) (idx ts : Nat) (e : Escrow)
    (hget : s.activeEscrows[idx]? = some e) (hc : e.created ≤ ts) :
    escrowHasExpired s idx ts = .ok (expiredb e ts) := by
  simp only [escrowHasExpired, hget]
  rw [if_neg (Nat.not_lt.mpr hc)]
  rfl

/-- Evaluation of `issueRefund` on an in-range slot when the balance covers
the refund: the captured amount goes to the caller, the slot is zeroed,
and a `refunded` event is emitted, in that order. -/
theorem issueRefund_eq (s : EscrowState) (sender idx : Nat) (e : Escrow)
    (hget : s.activeEscrows[idx]? = some e) (hbal : e.amountInEscrow ≤ s.balance) :
    issueRefund s sender idx =
      .ok ({ s with activeEscrows := s.activeEscrows.set idx zeroEscrow,
                    balance := s.balance - e.amountInEscrow },
           [Step.transfer sender e.amountInEscrow,
            Step.clearSlot idx,
            Step.emitEvent (Event.refunded sender e.destination e.created
              e.timeHorizon e.amountInEscrow)]) := by
  have hlt : idx < s.activeEscrows.length := (List.getElem?_eq_some.mp hget).1
  simp only [issueRefund, hget, removeEscrowFromMap]
  rw [if_neg (Nat.not_lt.mpr hbal), if_pos hlt]

/- ======== Claim theorems ======== -/

/-- C5 (amended): for an in-range record, `escrowHasExpired` computes the
strict predicate `(now - created) > time_horizon` whenever `created ≤ now`:
it is false at `now = created`, false at the boundary
`now = created + time_horizon`, and true strictly beyond it. But when
`now < created` (clock skew) the call does not return `false`: the checked
subtraction `currentTime -= escrow.created` reverts with an arithmetic
underflow panic. -/
theorem has_expired_boundary (s : EscrowState) (idx ts : Nat) (e : Escrow)
    (hget : s.activeEscrows[idx]? = some e) :
    (ts < e.created → escrowHasExpired s idx ts = .error .arithmeticUnderflow) ∧
    (e.created ≤ ts → escrowHasExpired s idx ts = .ok (decide (ts - e.created > e.timeHorizon))) ∧
    escrowHasExpired s idx e.created = .ok false ∧
    escrowHasExpired s idx (e.created + e.timeHorizon) = .ok false ∧
    (e.created + e.timeHorizon < ts → escrowHasExpired s idx ts = .ok true) := by
  refine ⟨?_, ?_, ?_, ?_, ?_⟩
  · intro h
    simp only [escrowHasExpired, hget]
    rw [if_pos h]
  · intro h
    exact escrowHasExpired_eq s idx ts e hget h
  · rw [escrowHasExpired_eq s idx e.created e hget (Nat.le_refl _)]
    have h : expiredb e e.created = false := by
      simp only [expiredb, decide_eq_false_iff_not]
      omega
    rw [h]
  · rw [escrowHasExpired_eq s idx (e.created + e.timeHorizon) e hget (Nat.le_add_right _ _)]
    have h : expiredb e (e.created + e.timeHorizon) = false := by
      simp only [expiredb, decide_eq_false_iff_not]
      omega
    rw [h]
  · intro h
    rw [escrowHasExpired_eq s idx ts e hget (by omega)]
    have h2 : expiredb e ts = true := by
      simp only [expiredb, decide_eq_true_eq]
      omega
    rw [h2]

/-- C5 witness: the boundary facts of `has_expired_boundary` at a concrete
record (created 50, horizon 1000) and timestamp 2000. -/
theorem has_expired_boundary_w :
    ((2000 : Nat) < 50 →
      escrowHasExpired ⟨[⟨5, 7, 100, 1000, 100, 50⟩], 9, 100⟩ 0 2000 = .error .arithmeticUnderflow) ∧
    ((50 : Nat) ≤ 2000 →
      escrowHasExpired ⟨[⟨5, 7, 100, 1000, 100, 50⟩], 9, 100⟩ 0 2000 = .ok (decide (2000 - 50 > 1000))) ∧
    escrowHasExpired ⟨[⟨5, 7, 100, 1000, 100, 50⟩], 9, 100⟩ 0 50 = .ok false ∧
    escrowHasExpired ⟨[⟨5, 7, 100, 1000, 100, 50⟩], 9, 100⟩ 0 (50 + 1000) = .ok false ∧
    ((50 : Nat) + 1000 < 2000 →
      escrowHasExpired ⟨[⟨5, 7, 100, 1000, 100, 50⟩], 9, 100⟩ 0 2000 = .ok true) :=
  has_expired_boundary ⟨[⟨5, 7, 100, 1000, 100, 50⟩], 9, 100⟩ 0 2000 ⟨5, 7, 100, 1000, 100, 50⟩ rfl

/-- C5 counterexample: at timestamp 5, before the record's creation time 50,
`escrowHasExpired` reverts with an arithmetic underflow instead of
returning `false`. -/
theorem has_expired_underflow_cex :
    escrowHasExpired ⟨[⟨5, 7, 100, 1000, 100, 50⟩], 9, 100⟩ 0 5 = .error .arithmeticUnderflow ∧
    escrowHasExpired ⟨[⟨5, 7, 100, 1000, 100, 50⟩], 9, 100⟩ 0 5 ≠ .ok false := by
  decide

/-- C2: refunds are sent to the caller, not to the record's source. On a
record with `source = 5`, the administrator `9` rejecting the escrow makes
`issueRefund` transfer the captured 100 wei to `msg.sender = 9`; the
`refunded` event also names the caller in its source field. This
contradicts the contract's own documentation of `refundOnExpired`
("it will refund the _source address"). -/
theorem refund_goes_to_caller_not_source :
    rejectEscrow ⟨[⟨5, 7, 100, 1000, 100, 50⟩], 9, 100⟩ 9 0 =
      .ok (⟨[zeroEscrow], 9, 0⟩,
        [Step.transfer 9 100, Step.clearSlot 0,
         Step.emitEvent (Event.refunded 9 7 50 1000 100)]) ∧
    (⟨5, 7, 100, 1000, 100, 50⟩ : Escrow).source = 5 ∧ (5 : Nat) ≠ 9 := by
  decide

/-- C6 (amended): refunding an already-cleared slot transfers zero to the
caller and leaves the store and balance unchanged, but it is not silent:
it still emits a `refunded` notification (with amount 0). -/
theorem refund_cleared_slot (s : EscrowState) (sender idx : Nat)
    (hget : s.activeEscrows[idx]? = some zeroEscrow) :
    issueRefund s sender idx =
      .ok ({ s with activeEscrows := s.activeEscrows.set idx zeroEscrow,
                    balance := s.balance - 0 },
           [Step.transfer sender 0, Step.clearSlot idx,
            Step.emitEvent (Event.refunded sender 0 0 0 0)]) ∧
    s.activeEscrows.set idx zeroEscrow = s.activeEscrows :=
  ⟨issueRefund_eq s sender idx zeroEscrow hget (Nat.zero_le _), set_same _ _ _ hget⟩

/-- C6 witness: `refund_cleared_slot` on a concrete one-slot store. -/
theorem refund_cleared_slot_w :
    issueRefund ⟨[zeroEscrow], 4, 11⟩ 2 0 =
      .ok (⟨([zeroEscrow] : List Escrow).set 0 zeroEscrow, 4, 11 - 0⟩,
           [Step.transfer 2 0, Step.clearSlot 0,
            Step.emitEvent (Event.refunded 2 0 0 0 0)]) ∧
    ([zeroEscrow] : List Escrow).set 0 zeroEscrow = [zeroEscrow] :=
  refund_cleared_slot ⟨[zeroEscrow], 4, 11⟩ 2 0 rfl

/-- C6 counterexample: the public refund path `rejectEscrow` on an
already-cleared slot transfers zero but still emits one `refunded`
notification, refuting "emits no further notification". -/
theorem refund_cleared_emits_cex :
    rejectEscrow ⟨[zeroEscrow], 9, 3⟩ 9 0 =
      .ok (⟨[zeroEscrow], 9, 3⟩,
        [Step.transfer 9 0, Step.clearSlot 0,
         Step.emitEvent (Event.refunded 9 0 0 0 0)]) ∧
    countRefunded [Step.transfer 9 0, Step.clearSlot 0,
      Step.emitEvent (Event.refunded 9 0 0 0 0)] = 1 := by
  decide

/-- C3 (amended): a public operation on a cleared handle does not signal
`NoActiveEscrow`. A cleared record has `created = 0` and
`time_horizon = 0`, so at any positive timestamp `escrowHasExpired` counts
it as expired and `releaseEscrow` (through `refundOnExpired`) is redirected
into the refund path: the second release of a handle completes
successfully with a zero-value transfer to the caller and another
`refunded` notification, and leaves the store unchanged. -/
theorem release_cleared_handle (s : EscrowState) (sender idx ts : Nat)
    (hget : s.activeEscrows[idx]? = some zeroEscrow)
    (hadmin : sender = s.admin)
    (hts : 0 < ts) :
    releaseEscrow s sender idx ts =
      .ok ({ s with activeEscrows := s.activeEscrows.set idx zeroEscrow,
                    balance := s.balance - 0 },
           [Step.transfer sender 0, Step.clearSlot idx,
            Step.emitEvent (Event.refunded sender 0 0 0 0)]) ∧
    ∀ err : EscrowError, releaseEscrow s sender idx ts ≠ .error err := by
  have h1 : releaseEscrow s sender idx ts = issueRefund s sender idx := by
    simp only [releaseEscrow]
    rw [if_neg (by simp [hadmin])]
    rw [escrowHasExpired_eq s idx ts zeroEscrow hget (Nat.zero_le _)]
    have h2 : expiredb zeroEscrow ts = true := by
      simp only [expiredb, decide_eq_true_eq, zeroEscrow]
      omega
    rw [h2]
  have heq := issueRefund_eq s sender idx zeroEscrow hget (Nat.zero_le _)
  constructor
  · rw [h1]
    exact heq
  · intro err h
    rw [h1, heq] at h
    exact Except.noConfusion h

/-- C3 witness: `release_cleared_handle` on a concrete one-slot store. -/
theorem release_cleared_handle_w :
    releaseEscrow ⟨[zeroEscrow], 7, 2⟩ 7 0 1 =
      .ok (⟨([zeroEscrow] : List Escrow).set 0 zeroEscrow, 7, 2 - 0⟩,
           [Step.transfer 7 0, Step.clearSlot 0,
            Step.emitEvent (Event.refunded 7 0 0 0 0)]) ∧
    ∀ err : EscrowError, releaseEscrow ⟨[zeroEscrow], 7, 2⟩ 7 0 1 ≠ .error err :=
  release_cleared_handle ⟨[zeroEscrow], 7, 2⟩ 7 0 1 rfl rfl (by decide)

/-- C3 counterexample: releasing handle 0 twice. The first release clears
the record; the second release does not fail with `NoActiveEscrow` — it
completes via the refund path, transferring 0 to the caller and emitting
another `refunded` event. -/
theorem second_release_not_no_active_cex :
    releaseEscrow ⟨[⟨5, 7, 10, 100, 10, 50⟩], 9, 10⟩ 9 0 60 =
      .ok (⟨[zeroEscrow], 9, 0⟩,
        [Step.setAmount 0 0, Step.transfer 7 10,
         Step.emitEvent (Event.completed 5 7 50 100 0), Step.clearSlot 0]) ∧
    releaseEscrow ⟨[zeroEscrow], 9, 0⟩ 9 0 60 =
      .ok (⟨[zeroEscrow], 9, 0⟩,
        [Step.transfer 9 0, Step.clearSlot 0,
         Step.emitEvent (Event.refunded 9 0 0 0 0)]) ∧
    releaseEscrow ⟨[zeroEscrow], 9, 0⟩ 9 0 60 ≠ .error .noActiveEscrow := by
  decide

/-- C1 (amended): in a successful non-expired release, the effect order is:
zero `amount_in_escrow` (storage write), THEN invoke the external transfer
to the destination, THEN emit `completed`, THEN tombstone the record. The
zeroing precedes the transfer, but the tombstoning happens only after the
external transfer has run, so the record is NOT cleared before the
transfer begins. -/
theorem release_zero_transfer_tombstone (s : EscrowState) (sender idx ts : Nat) (e : Escrow)
    (hget : s.activeEscrows[idx]? = some e)
    (hadmin : sender = s.admin)
    (hc : e.created ≤ ts)
    (hlive : ts - e.created ≤ e.timeHorizon)
    (hmet : e.total ≤ e.amountInEscrow)
    (hbal : e.amountInEscrow ≤ s.balance)
    (hdest : e.destination ≠ 0) :
    releaseEscrow s sender idx ts =
      .ok ({ s with activeEscrows :=
                      (s.activeEscrows.set idx { e with amountInEscrow := 0 }).set idx zeroEscrow,
                    balance := s.balance - e.amountInEscrow },
           [Step.setAmount idx 0,
            Step.transfer e.destination e.amountInEscrow,
            Step.emitEvent (Event.completed e.source e.destination e.created e.timeHorizon 0),
            Step.clearSlot idx]) ∧
    clearBeforeTransfer
      [Step.setAmount idx 0,
       Step.transfer e.destination e.amountInEscrow,
       Step.emitEvent (Event.completed e.source e.destination e.created e.timeHorizon 0),
       Step.clearSlot idx] = false := by
  constructor
  · simp only [releaseEscrow]
    rw [if_neg (by simp [hadmin])]
    rw [escrowHasExpired_eq s idx ts e hget hc]
    have h2 : expiredb e ts = false := by
      simp only [expiredb, decide_eq_false_iff_not]
      omega
    rw [h2]
    simp only [hget]
    rw [if_neg (Nat.not_lt.mpr hmet), if_neg (Nat.not_lt.mpr hbal), if_neg hdest]
    simp only [removeEscrowFromMap, List.length_set]
    rw [if_pos (List.getElem?_eq_some.mp hget).1]
  · rfl

/-- C1 witness: `release_zero_transfer_tombstone` on a concrete funded
record. -/
theorem release_zero_transfer_tombstone_w :
    releaseEscrow ⟨[⟨2, 3, 4, 100, 4, 50⟩], 8, 4⟩ 8 0 60 =
      .ok (⟨(([⟨2, 3, 4, 100, 4, 50⟩] : List Escrow).set 0 ⟨2, 3, 4, 100, 0, 50⟩).set 0 zeroEscrow,
            8, 4 - 4⟩,
           [Step.setAmount 0 0, Step.transfer 3 4,
            Step.emitEvent (Event.completed 2 3 50 100 0), Step.clearSlot 0]) ∧
    clearBeforeTransfer
      [Step.setAmount 0 0, Step.transfer 3 4,
       Step.emitEvent (Event.completed 2 3 50 100 0), Step.clearSlot 0] = false :=
  release_zero_transfer_tombstone ⟨[⟨2, 3, 4, 100, 4, 50⟩], 8, 4⟩ 8 0 60 ⟨2, 3, 4, 100, 4, 50⟩
    rfl rfl (by decide) (by decide) (by decide) (by decide) (by decide)

/-- C1 counterexample: a successful release whose effect trace performs the
external transfer before the tombstone — `clearBeforeTransfer` is `false`
on the trace, refuting "the record is already cleared before the external
transfer begins". -/
theorem release_tombstone_after_transfer_cex :
    releaseEscrow ⟨[⟨5, 7, 10, 100, 10, 50⟩], 9, 10⟩ 9 0 60 =
      .ok (⟨[zeroEscrow], 9, 0⟩,
        [Step.setAmount 0 0, Step.transfer 7 10,
         Step.emitEvent (Event.completed 5 7 50 100 0), Step.clearSlot 0]) ∧
    clearBeforeTransfer
      [Step.setAmount 0 0, Step.transfer 7 10,
       Step.emitEvent (Event.completed 5 7 50 100 0), Step.clearSlot 0] = false := by
  decide

/-- On success, `issueRefund` produces exactly a transfer to the caller, a
tombstone, and a `refunded` event — in particular no `completed` event. -/
theorem issueRefund_steps (s : EscrowState) (sender idx : Nat) (s' : EscrowState) (steps : List Step)
    (h : issueRefund s sender idx = .ok (s', steps)) :
    ∃ e : Escrow, steps = [Step.transfer sender e.amountInEscrow, Step.clearSlot idx,
      Step.emitEvent (Event.refunded sender e.destination e.created e.timeHorizon
        e.amountInEscrow)] := by
  simp only [issueRefund] at h
  split at h
  · exact absurd h (by simp)
  next e heq =>
    split at h
    · exact absurd h (by simp)
    · split at h
      · exact absurd h (by simp)
      · simp only [Except.ok.injEq, Prod.mk.injEq] at h
        exact ⟨e, h.2.symm⟩

/-- C10: every `completed` notification emitted by a successful
`releaseEscrow` call carries amount 0, whatever payout was transferred:
the event is emitted after the storage field `amountInEscrow` has been
zeroed, and it reads that field. -/
theorem completed_event_amount_zero (s : EscrowState) (sender idx ts : Nat)
    (s' : EscrowState) (steps : List Step)
    (h : releaseEscrow s sender idx ts = .ok (s', steps))
    (src dst cr th amt : Nat)
    (hmem : Step.emitEvent (Event.completed src dst cr th amt) ∈ steps) :
    amt = 0 := by
  simp only [releaseEscrow] at h
  split at h
  · exact absurd h (by simp)
  · split at h
    · exact absurd h (by simp)
    · -- expired: the refund path emits no completed event
      obtain ⟨e, hsteps⟩ := issueRefund_steps _ _ _ _ _ h
      subst hsteps
      simp at hmem
    · -- non-expired path
      split at h
      · exact absurd h (by simp)
      · split at h
        · exact absurd h (by simp)
        · split at h
          · exact absurd h (by simp)
          · split at h
            · exact absurd h (by simp)
            · split at h
              · exact absurd h (by simp)
              · simp only [Except.ok.injEq, Prod.mk.injEq] at h
                obtain ⟨-, hsteps⟩ := h
                subst hsteps
                simp at hmem
                omega

/-- C10 witness: a concrete successful release emitting
`completed 5 7 50 100 0`; `completed_event_amount_zero` yields that its
amount field is 0. -/
theorem completed_event_amount_zero_w :
    releaseEscrow ⟨[⟨5, 7, 10, 100, 10, 50⟩], 9, 10⟩ 9 0 60 =
      .ok (⟨[zeroEscrow], 9, 0⟩,
        [Step.setAmount 0 0, Step.transfer 7 10,
         Step.emitEvent (Event.completed 5 7 50 100 0), Step.clearSlot 0]) ∧
    (0 : Nat) = 0 :=
  ⟨by decide,
   completed_event_amount_zero ⟨[⟨5, 7, 10, 100, 10, 50⟩], 9, 10⟩ 9 0 60
     ⟨[zeroEscrow], 9, 0⟩
     [Step.setAmount 0 0, Step.transfer 7 10,
      Step.emitEvent (Event.completed 5 7 50 100 0), Step.clearSlot 0]
     (by decide) 5 7 50 100 0 (by decide)⟩

/-- C7: funding a live, non-expired record: (i) a contribution leaving the
amount strictly below `total` performs no transfer, emits nothing, and
leaves the record in place with the new amount; (ii) a contribution making
the amount reach or exceed `total` emits one `funded` notification and
leaves the record live with its amount updated (no value moves to the
destination); (iii) once `amount_in_escrow ≥ total`, any further funding
attempt (while non-expired) reverts with `AlreadyFullyFunded`, so the
`funded` notification of (ii) fires at most once over the record's
lifetime. -/
theorem fund_threshold_behaviour (s : EscrowState) (sender idx v ts : Nat) (e : Escrow)
    (hget : s.activeEscrows[idx]? = some e)
    (hsender : sender ≠ 0)
    (hc : e.created ≤ ts)
    (hlive : ts - e.created ≤ e.timeHorizon)
    (htotal : e.total ≠ 0)
    (hdest : e.destination ≠ 0) :
    (e.amountInEscrow + v < e.total → v ≠ 0 →
      fundEscrow s sender idx v ts =
        .ok ({ s with activeEscrows :=
                        s.activeEscrows.set idx { e with amountInEscrow := e.amountInEscrow + v },
                      balance := s.balance + v },
             [Step.setAmount idx (e.amountInEscrow + v)])) ∧
    (e.amountInEscrow < e.total → e.total ≤ e.amountInEscrow + v → v ≠ 0 →
      fundEscrow s sender idx v ts =
        .ok ({ s with activeEscrows :=
                        s.activeEscrows.set idx { e with amountInEscrow := e.amountInEscrow + v },
                      balance := s.balance + v },
             [Step.setAmount idx (e.amountInEscrow + v),
              Step.emitEvent (Event.funded sender e.destination e.created e.timeHorizon
                (e.amountInEscrow + v))])) ∧
    (e.total ≤ e.amountInEscrow →
      fundEscrow s sender idx v ts = .error .alreadyFullyFunded) := by
  have h2 : expiredb e ts = false := by
    simp only [expiredb, decide_eq_false_iff_not]
    omega
  refine ⟨?_, ?_, ?_⟩
  · intro hbelow hv
    simp only [fundEscrow]
    rw [if_neg hsender]
    rw [escrowHasExpired_eq ⟨s.activeEscrows, s.admin, s.balance + v⟩ idx ts e hget hc, h2]
    simp only [hget]
    rw [if_neg htotal, if_neg hdest, if_neg (by omega), if_neg hv, if_neg (by omega)]
  · intro hlt hmet hv
    simp only [fundEscrow]
    rw [if_neg hsender]
    rw [escrowHasExpired_eq ⟨s.activeEscrows, s.admin, s.balance + v⟩ idx ts e hget hc, h2]
    simp only [hget]
    rw [if_neg htotal, if_neg hdest, if_neg (by omega), if_neg hv, if_pos (by omega)]
  · intro hfull
    simp only [fundEscrow]
    rw [if_neg hsender]
    rw [escrowHasExpired_eq ⟨s.activeEscrows, s.admin, s.balance + v⟩ idx ts e hget hc, h2]
    simp only [hget]
    rw [if_neg htotal, if_neg hdest, if_pos hfull]

/-- C7 witness: `fund_threshold_behaviour` on a concrete live record
(total 10, amount 0) funded with 4 at a non-expired timestamp. -/
theorem fund_threshold_behaviour_w :
    ((0 : Nat) + 4 < 10 → (4 : Nat) ≠ 0 →
      fundEscrow ⟨[⟨5, 7, 10, 100, 0, 50⟩], 9, 0⟩ 5 0 4 60 =
        .ok (⟨([⟨5, 7, 10, 100, 0, 50⟩] : List Escrow).set 0 ⟨5, 7, 10, 100, 0 + 4, 50⟩, 9, 0 + 4⟩,
             [Step.setAmount 0 (0 + 4)])) ∧
    ((0 : Nat) < 10 → (10 : Nat) ≤ 0 + 4 → (4 : Nat) ≠ 0 →
      fundEscrow ⟨[⟨5, 7, 10, 100, 0, 50⟩], 9, 0⟩ 5 0 4 60 =
        .ok (⟨([⟨5, 7, 10, 100, 0, 50⟩] : List Escrow).set 0 ⟨5, 7, 10, 100, 0 + 4, 50⟩, 9, 0 + 4⟩,
             [Step.setAmount 0 (0 + 4),
              Step.emitEvent (Event.funded 5 7 50 100 (0 + 4))])) ∧
    ((10 : Nat) ≤ 0 →
      fundEscrow ⟨[⟨5, 7, 10, 100, 0, 50⟩], 9, 0⟩ 5 0 4 60 = .error .alreadyFullyFunded) :=
  fund_threshold_behaviour ⟨[⟨5, 7, 10, 100, 0, 50⟩], 9, 0⟩ 5 0 4 60 ⟨5, 7, 10, 100, 0, 50⟩
    rfl (by decide) (by decide) (by decide) (by decide) (by decide)

/-- C8: `createEscrow` on valid inputs returns the store length at
insertion time as the new handle (also reported in the `created` event) and
appends exactly one record, so a subsequent creation returns the strictly
larger handle `length + 1`; `removeEscrowFromMap` zeroes a slot in place
without changing the store's length, so no handle is ever reassigned. -/
theorem create_handle_monotone (s : EscrowState)
    (source destination total timeHorizon ts idx : Nat)
    (ht : total ≠ 0) (hd : destination ≠ 0) (hh : timeHorizon ≠ 0)
    (hidx : idx < s.activeEscrows.length) :
    createEscrow s source destination total timeHorizon ts =
      .ok ({ s with activeEscrows :=
                      s.activeEscrows ++ [⟨source, destination, total, timeHorizon, 0, ts⟩] },
           [Step.emitEvent (Event.created source destination ts timeHorizon 0
             s.activeEscrows.length)],
           s.activeEscrows.length) ∧
    (s.activeEscrows ++ [(⟨source, destination, total, timeHorizon, 0, ts⟩ : Escrow)]).length
      = s.activeEscrows.length + 1 ∧
    (∀ src2 dst2 t2 th2 ts2, t2 ≠ 0 → dst2 ≠ 0 → th2 ≠ 0 →
      createEscrow
          { s with activeEscrows :=
                     s.activeEscrows ++ [⟨source, destination, total, timeHorizon, 0, ts⟩] }
          src2 dst2 t2 th2 ts2 =
        .ok ({ s with activeEscrows :=
                        (s.activeEscrows ++ [⟨source, destination, total, timeHorizon, 0, ts⟩])
                          ++ [⟨src2, dst2, t2, th2, 0, ts2⟩] },
             [Step.emitEvent (Event.created src2 dst2 ts2 th2 0
               (s.activeEscrows.length + 1))],
             s.activeEscrows.length + 1)) ∧
    removeEscrowFromMap s idx =
      .ok { s with activeEscrows := s.activeEscrows.set idx zeroEscrow } ∧
    (s.activeEscrows.set idx zeroEscrow).length = s.activeEscrows.length := by
  refine ⟨?_, by simp, ?_, ?_, by simp⟩
  · simp only [createEscrow]
    rw [if_neg ht, if_neg hd, if_neg hh]
    simp
  · intro src2 dst2 t2 th2 ts2 h1 h2 h3
    simp only [createEscrow]
    rw [if_neg h1, if_neg h2, if_neg h3]
    simp
  · simp only [removeEscrowFromMap]
    rw [if_pos hidx]

/-- C8 witness: `create_handle_monotone` on a concrete one-record store:
the returned handle is 1 (the current length), a second creation returns 2,
and clearing slot 0 keeps the length at 1. -/
theorem create_handle_monotone_w :
    createEscrow ⟨[zeroEscrow], 9, 0⟩ 5 7 10 100 50 =
      .ok (⟨[zeroEscrow] ++ [⟨5, 7, 10, 100, 0, 50⟩], 9, 0⟩,
           [Step.emitEvent (Event.created 5 7 50 100 0 1)], 1) ∧
    (([zeroEscrow] : List Escrow) ++ [(⟨5, 7, 10, 100, 0, 50⟩ : Escrow)]).length = 1 + 1 ∧
    (∀ src2 dst2 t2 th2 ts2, t2 ≠ 0 → dst2 ≠ 0 → th2 ≠ 0 →
      createEscrow ⟨[zeroEscrow] ++ [⟨5, 7, 10, 100, 0, 50⟩], 9, 0⟩
          src2 dst2 t2 th2 ts2 =
        .ok (⟨([zeroEscrow] ++ [⟨5, 7, 10, 100, 0, 50⟩]) ++ [⟨src2, dst2, t2, th2, 0, ts2⟩], 9, 0⟩,
             [Step.emitEvent (Event.created src2 dst2 ts2 th2 0 (1 + 1))],
             1 + 1)) ∧
    removeEscrowFromMap ⟨[zeroEscrow], 9, 0⟩ 0 =
      .ok ⟨([zeroEscrow] : List Escrow).set 0 zeroEscrow, 9, 0⟩ ∧
    (([zeroEscrow] : List Escrow).set 0 zeroEscrow).length = 1 :=
  create_handle_monotone ⟨[zeroEscrow], 9, 0⟩ 5 7 10 100 50 0
    (by decide) (by decide) (by decide) (by decide)

/-- C9 (amended): on corresponding live, non-expired, not-yet-full records
funded with the same contribution, the indexed variant emits `funded`
exactly when the new amount meets or exceeds `total` (`>=`), while the
legacy variant emits `funded` exactly when the new amount strictly exceeds
`total` (`>`): the two variants agree except when the contribution makes
the amount exactly equal to `total`, where the indexed variant emits and
the legacy variant does not. -/
theorem fund_funded_condition_variants
    (s : EscrowState) (st : LegacyState) (sender idx v ts : Nat)
    (src dst total th amt cr : Nat)
    (hget : s.activeEscrows[idx]? = some ⟨src, dst, total, th, amt, cr⟩)
    (hlook : lookupEscrow st.activeEscrows sender = ⟨total, dst, th, amt, cr⟩)
    (hsender : sender ≠ 0)
    (htotal : total ≠ 0) (hdest : dst ≠ 0)
    (hlt : amt < total) (hv : v ≠ 0)
    (hc : cr ≤ ts) (hlive : ts - cr ≤ th) :
    fundedFlag (fundEscrow s sender idx v ts) = decide (total ≤ amt + v) ∧
    fundedFlag (legacyFundEscrow st sender v ts) = decide (total < amt + v) := by
  have h2 : expiredb ⟨src, dst, total, th, amt, cr⟩ ts = false := by
    simp only [expiredb, decide_eq_false_iff_not]
    omega
  constructor
  · by_cases hcase : total ≤ amt + v
    · have hrun : fundEscrow s sender idx v ts =
          .ok ({ s with activeEscrows :=
                          s.activeEscrows.set idx ⟨src, dst, total, th, amt + v, cr⟩,
                        balance := s.balance + v },
               [Step.setAmount idx (amt + v),
                Step.emitEvent (Event.funded sender dst cr th (amt + v))]) := by
        simp only [fundEscrow]
        rw [if_neg hsender]
        rw [escrowHasExpired_eq ⟨s.activeEscrows, s.admin, s.balance + v⟩ idx ts
          ⟨src, dst, total, th, amt, cr⟩ hget hc, h2]
        simp only [hget]
        rw [if_neg htotal, if_neg hdest, if_neg (by omega), if_neg hv, if_pos (by omega)]
      rw [hrun]
      simp [fundedFlag, emitsFunded, hcase]
    · have hrun : fundEscrow s sender idx v ts =
          .ok ({ s with activeEscrows :=
                          s.activeEscrows.set idx ⟨src, dst, total, th, amt + v, cr⟩,
                        balance := s.balance + v },
               [Step.setAmount idx (amt + v)]) := by
        simp only [fundEscrow]
        rw [if_neg hsender]
        rw [escrowHasExpired_eq ⟨s.activeEscrows, s.admin, s.balance + v⟩ idx ts
          ⟨src, dst, total, th, amt, cr⟩ hget hc, h2]
        simp only [hget]
        rw [if_neg htotal, if_neg hdest, if_neg (by omega), if_neg hv, if_neg (by omega)]
      rw [hrun]
      simp [fundedFlag, emitsFunded, hcase]
  · by_cases hcase : total < amt + v
    · have hrun : legacyFundEscrow st sender v ts =
          .ok ({ st with activeEscrows :=
                           setEscrowMap st.activeEscrows sender ⟨total, dst, th, amt + v, cr⟩,
                         balance := st.balance + v },
               [Step.setAmount sender (amt + v),
                Step.emitEvent (Event.funded sender dst cr th (amt + v))]) := by
        simp only [legacyFundEscrow, legacyEscrowHasExpired, hlook]
        rw [if_neg hsender]
        rw [if_neg htotal, if_neg hdest, if_neg (by omega),
          if_neg (Nat.not_lt.mpr hc)]
        rw [show decide (ts - cr > th) = false from by
          simp only [decide_eq_false_iff_not]; omega]
        rw [if_neg hv, if_pos (by omega)]
      rw [hrun]
      simp [fundedFlag, emitsFunded, hcase]
    · have hrun : legacyFundEscrow st sender v ts =
          .ok ({ st with activeEscrows :=
                           setEscrowMap st.activeEscrows sender ⟨total, dst, th, amt + v, cr⟩,
                         balance := st.balance + v },
               [Step.setAmount sender (amt + v)]) := by
        simp only [legacyFundEscrow, legacyEscrowHasExpired, hlook]
        rw [if_neg hsender]
        rw [if_neg htotal, if_neg hdest, if_neg (by omega),
          if_neg (Nat.not_lt.mpr hc)]
        rw [show decide (ts - cr > th) = false from by
          simp only [decide_eq_false_iff_not]; omega]
        rw [if_neg hv, if_neg (by omega)]
      rw [hrun]
      simp [fundedFlag, emitsFunded, hcase]

/-- C9 witness: on corresponding records with total 10 and amount 0, a
contribution of exactly 10 makes the indexed variant's flag
`decide (10 ≤ 10)` and the legacy variant's flag `decide (10 < 10)`. -/
theorem fund_funded_condition_variants_w :
    fundedFlag (fundEscrow ⟨[⟨5, 7, 10, 100, 0, 50⟩], 9, 0⟩ 5 0 10 60) =
      decide ((10 : Nat) ≤ 0 + 10) ∧
    fundedFlag (legacyFundEscrow ⟨[(5, ⟨10, 7, 100, 0, 50⟩)], 0⟩ 5 10 60) =
      decide ((10 : Nat) < 0 + 10) :=
  fund_funded_condition_variants ⟨[⟨5, 7, 10, 100, 0, 50⟩], 9, 0⟩
    ⟨[(5, ⟨10, 7, 100, 0, 50⟩)], 0⟩ 5 0 10 60 5 7 10 100 0 50
    rfl rfl (by decide) (by decide) (by decide) (by decide) (by decide)
    (by decide) (by decide)

/-- C9 counterexample: funding to exactly `total` (10 with contribution 10)
makes the indexed variant emit `funded` while the legacy variant does not —
the two variants are not equivalent on the funding-notification
condition. -/
theorem fund_funded_condition_variants_cex :
    fundedFlag (fundEscrow ⟨[⟨5, 7, 10, 100, 0, 50⟩], 9, 1⟩ 5 0 10 60) = true ∧
    fundedFlag (legacyFundEscrow ⟨[(5, ⟨10, 7, 100, 0, 50⟩)], 1⟩ 5 10 60) = false := by
  decide

/-- `sumAmounts` unfolds on cons. -/
theorem sumAmounts_cons (e : Escrow) (l : List Escrow) :
    sumAmounts (e :: l) = e.amountInEscrow + sumAmounts l := by
  simp [sumAmounts]

/-- `countRefunded` is additive on append. -/
theorem countRefunded_append (a b : List Step) :
    countRefunded (a ++ b) = countRefunded a + countRefunded b := by
  simp [countRefunded, List.filter_append]

/-- One sweep iteration on an in-range expired slot: issue the refund,
then continue at the next index on the updated store. -/
theorem sweepIter_step_refund (sender ts fuel i : Nat) (l : List Escrow) (adm bal : Nat)
    (e : Escrow)
    (hget : l[i]? = some e)
    (hexp : escrowHasExpired ⟨l, adm, bal⟩ i ts = .ok true)
    (hbal : e.amountInEscrow ≤ bal) :
    sweepIter sender ts (fuel + 1) ⟨l, adm, bal⟩ i =
      match sweepIter sender ts fuel ⟨l.set i zeroEscrow, adm, bal - e.amountInEscrow⟩ (i + 1) with
      | .error err => .error err
      | .ok (s2, steps2) =>
          .ok (s2, [Step.transfer sender e.amountInEscrow, Step.clearSlot i,
            Step.emitEvent (Event.refunded sender e.destination e.created e.timeHorizon
              e.amountInEscrow)] ++ steps2) := by
  have hguard : i < l.length := (List.getElem?_eq_some.mp hget).1
  simp only [sweepIter]
  rw [if_pos hguard, hexp, issueRefund_eq ⟨l, adm, bal⟩ sender i e hget hbal]

/-- One sweep iteration on an in-range non-expired slot: skip to the next
index. -/
theorem sweepIter_step_skip (sender ts fuel i : Nat) (l : List Escrow) (adm bal : Nat)
    (hguard : i < l.length)
    (hexp : escrowHasExpired ⟨l, adm, bal⟩ i ts = .ok false) :
    sweepIter sender ts (fuel + 1) ⟨l, adm, bal⟩ i =
      sweepIter sender ts fuel ⟨l, adm, bal⟩ (i + 1) := by
  simp only [sweepIter]
  rw [if_pos hguard, hexp]

/-- Loop invariant of `refundAllExpiredEscrows`: starting at index
`done.length` with fuel for the remaining slots, the loop zeroes exactly
the remaining slots satisfying the expiry predicate, leaves all other
slots unchanged, emits one `refunded` notification per processed slot, and
never reverts — provided no remaining record postdates `ts` and the balance
covers the refunds. -/
theorem sweepIter_run (sender ts : Nat) :
    ∀ (rest done : List Escrow) (adm bal : Nat),
      (∀ e ∈ rest, e.created ≤ ts) →
      sumAmounts rest ≤ bal →
      ∃ steps,
        sweepIter sender ts rest.length ⟨done ++ rest, adm, bal⟩ done.length =
          .ok (⟨done ++ sweepSpec ts rest, adm, bal - sumExpiredAmounts ts rest⟩, steps) ∧
        countRefunded steps = (rest.filter fun e => expiredb e ts).length := by
  intro rest
  induction rest with
  | nil =>
      intro done adm bal h1 h2
      exact ⟨[], rfl, rfl⟩
  | cons e rest ih =>
      intro done adm bal h1 h2
      have hget : (done ++ e :: rest)[done.length]? = some e := getElem?_append_len done e rest
      have hcr : e.created ≤ ts := h1 e (List.mem_cons_self e rest)
      have hsum : e.amountInEscrow + sumAmounts rest ≤ bal := by
        rw [← sumAmounts_cons]; exact h2
      have hexpeq := escrowHasExpired_eq ⟨done ++ e :: rest, adm, bal⟩ done.length ts e hget hcr
      cases hb : expiredb e ts with
      | true =>
          rw [hb] at hexpeq
          obtain ⟨steps2, hrun, hcount⟩ :=
            ih (done ++ [zeroEscrow]) adm (bal - e.amountInEscrow)
              (fun x hx => h1 x (List.mem_cons_of_mem e hx)) (by omega)
          refine ⟨[Step.transfer sender e.amountInEscrow, Step.clearSlot done.length,
            Step.emitEvent (Event.refunded sender e.destination e.created e.timeHorizon
              e.amountInEscrow)] ++ steps2, ?_, ?_⟩
          · have hset : (done ++ e :: rest).set done.length zeroEscrow
                = (done ++ [zeroEscrow]) ++ rest := by
              rw [set_append_len]
              simp
            have hlen1 : (done ++ [zeroEscrow]).length = done.length + 1 := by simp
            have hspec : done ++ sweepSpec ts (e :: rest)
                = (done ++ [zeroEscrow]) ++ sweepSpec ts rest := by
              simp [sweepSpec, hb]
            have hsub : bal - sumExpiredAmounts ts (e :: rest)
                = bal - e.amountInEscrow - sumExpiredAmounts ts rest := by
              have hx : sumExpiredAmounts ts (e :: rest)
                  = e.amountInEscrow + sumExpiredAmounts ts rest := by
                simp [sumExpiredAmounts, List.filter_cons, hb]
              rw [hx]
              omega
            rw [List.length_cons,
              sweepIter_step_refund sender ts rest.length done.length
                (done ++ e :: rest) adm bal e hget hexpeq (by omega),
              hset, ← hlen1, hrun, hspec, hsub]
          · rw [countRefunded_append, hcount]
            have h1step : countRefunded [Step.transfer sender e.amountInEscrow,
              Step.clearSlot done.length,
              Step.emitEvent (Event.refunded sender e.destination e.created e.timeHorizon
                e.amountInEscrow)] = 1 := rfl
            rw [h1step]
            simp only [List.filter_cons, hb, List.length_cons, if_true]
            omega
      | false =>
          rw [hb] at hexpeq
          obtain ⟨steps2, hrun, hcount⟩ :=
            ih (done ++ [e]) adm bal
              (fun x hx => h1 x (List.mem_cons_of_mem e hx)) (by omega)
          refine ⟨steps2, ?_, ?_⟩
          · have hguard : done.length < (done ++ e :: rest).length := by
              simp only [List.length_append, List.length_cons]
              omega
            have hstate : done ++ e :: rest = (done ++ [e]) ++ rest := by simp
            have hlen2 : (done ++ [e]).length = done.length + 1 := by simp
            have hspec : done ++ sweepSpec ts (e :: rest)
                = (done ++ [e]) ++ sweepSpec ts rest := by
              simp [sweepSpec, hb]
            have hsub : sumExpiredAmounts ts (e :: rest) = sumExpiredAmounts ts rest := by
              simp [sumExpiredAmounts, List.filter_cons, hb]
            rw [List.length_cons,
              sweepIter_step_skip sender ts rest.length done.length
                (done ++ e :: rest) adm bal hguard hexpeq,
              hstate, ← hlen2, hrun, hspec, hsub]
          · rw [hcount]
            simp only [List.filter_cons, hb, Bool.false_eq_true, if_false]

/-- C4 (amended): the sweep never reverts (given every record's creation
time is at or before `ts` and the balance covers the escrowed amounts) and
issues exactly one refund per slot satisfying the code's expiry predicate,
zeroing those slots and leaving every other record unchanged. Because a
cleared slot has `created = 0` and `time_horizon = 0`, the predicate holds
for it at any positive timestamp, so cleared/tombstoned slots ARE
re-processed (a zero-value refund and a `refunded` notification each);
only unexpired live records are left untouched. -/
theorem sweep_refunds_exactly_expired (s : EscrowState) (sender ts : Nat)
    (hadmin : sender = s.admin)
    (hc : ∀ e ∈ s.activeEscrows, e.created ≤ ts)
    (hbal : sumAmounts s.activeEscrows ≤ s.balance) :
    ∃ steps,
      refundAllExpiredEscrows s sender ts =
        .ok (⟨sweepSpec ts s.activeEscrows, s.admin,
              s.balance - sumExpiredAmounts ts s.activeEscrows⟩, steps) ∧
      countRefunded steps = (s.activeEscrows.filter fun e => expiredb e ts).length := by
  obtain ⟨steps, hrun, hcount⟩ :=
    sweepIter_run sender ts s.activeEscrows [] s.admin s.balance hc hbal
  refine ⟨steps, ?_, hcount⟩
  simp only [refundAllExpiredEscrows]
  rw [if_neg (by simp [hadmin])]
  exact hrun

/-- C4 witness: `sweep_refunds_exactly_expired` on a three-slot store (one
expired live record, one unexpired live record, one cleared slot) at
timestamp 20. -/
theorem sweep_refunds_exactly_expired_w :
    ∃ steps,
      refundAllExpiredEscrows
          ⟨[⟨1, 2, 10, 5, 4, 10⟩, ⟨3, 4, 10, 100, 7, 10⟩, zeroEscrow], 9, 20⟩ 9 20 =
        .ok (⟨sweepSpec 20 [⟨1, 2, 10, 5, 4, 10⟩, ⟨3, 4, 10, 100, 7, 10⟩, zeroEscrow], 9,
              20 - sumExpiredAmounts 20
                [⟨1, 2, 10, 5, 4, 10⟩, ⟨3, 4, 10, 100, 7, 10⟩, zeroEscrow]⟩, steps) ∧
      countRefunded steps =
        (([⟨1, 2, 10, 5, 4, 10⟩, ⟨3, 4, 10, 100, 7, 10⟩, zeroEscrow] : List Escrow).filter
          fun e => expiredb e 20).length :=
  sweep_refunds_exactly_expired
    ⟨[⟨1, 2, 10, 5, 4, 10⟩, ⟨3, 4, 10, 100, 7, 10⟩, zeroEscrow], 9, 20⟩ 9 20
    rfl (by decide) (by decide)

/-- C4 counterexample: a store whose only slots are one cleared slot and
one unexpired live record has zero expired live records, yet the sweep
re-processes the cleared slot: it issues a zero-value refund for it and
emits a `refunded` notification, refuting "no cleared/tombstoned slot is
refunded or re-processed". -/
theorem sweep_reprocesses_cleared_slot_cex :
    refundAllExpiredEscrows ⟨[zeroEscrow, ⟨5, 7, 10, 100, 3, 1⟩], 9, 5⟩ 9 1 =
      .ok (⟨[zeroEscrow, ⟨5, 7, 10, 100, 3, 1⟩], 9, 5⟩,
        [Step.transfer 9 0, Step.clearSlot 0,
         Step.emitEvent (Event.refunded 9 0 0 0 0)]) ∧
    countRefunded [Step.transfer 9 0, Step.clearSlot 0,
      Step.emitEvent (Event.refunded 9 0 0 0 0)] = 1 := by
  decide

end BLContracts
